import Mathlib

/-!
Verification of the elevator simulation core (entity/relation graph,
timed action gate, elevator dispatch engine, passenger lifecycle engine).

The development shallowly embeds the TypeScript sources.  The repository
contains two iterations of the engine; definitions from the first iteration
(`elevator.ts` first half together with the passenger module using
`setElevator`/`setPassenger`) live in namespace `V1`, definitions from the
second iteration (the split per-state elevator systems together with the
passenger module using `setComponent`) live in namespace `V2`.

JavaScript `number` arithmetic used by the acting gate is embedded as
exact rational arithmetic extended with signed infinities and NaN
(`JSNum`); signed zero is collapsed to zero, and rounding of finite
results is ignored, neither of which is observable in the facts proved
here.  Entity ids are natural numbers and are not recycled.
-/

abbrev EntityId := Nat

/-! ## JavaScript number model (for `acting.ts`) -/

/-- Extended number: NaN, +Infinity, -Infinity or a finite rational. -/
inductive JSNum where
  | nan : JSNum
  | inf : JSNum
  | ninf : JSNum
  | fin : ℚ → JSNum
deriving DecidableEq, Repr

/-- JavaScript addition on `JSNum`. -/
def jsAdd : JSNum → JSNum → JSNum
  | JSNum.nan, _ => JSNum.nan
  | _, JSNum.nan => JSNum.nan
  | JSNum.inf, JSNum.ninf => JSNum.nan
  | JSNum.ninf, JSNum.inf => JSNum.nan
  | JSNum.inf, _ => JSNum.inf
  | _, JSNum.inf => JSNum.inf
  | JSNum.ninf, _ => JSNum.ninf
  | _, JSNum.ninf => JSNum.ninf
  | JSNum.fin a, JSNum.fin b => JSNum.fin (a + b)

/-- JavaScript division on `JSNum` (finite / 0 gives a signed infinity,
0 / 0 gives NaN). -/
def jsDiv : JSNum → JSNum → JSNum
  | JSNum.nan, _ => JSNum.nan
  | _, JSNum.nan => JSNum.nan
  | JSNum.fin a, JSNum.fin b =>
      if b = 0 then
        if a = 0 then JSNum.nan else if 0 < a then JSNum.inf else JSNum.ninf
      else JSNum.fin (a / b)
  | JSNum.fin _, _ => JSNum.fin 0
  | JSNum.inf, JSNum.fin b => if 0 ≤ b then JSNum.inf else JSNum.ninf
  | JSNum.ninf, JSNum.fin b => if 0 ≤ b then JSNum.ninf else JSNum.inf
  | _, _ => JSNum.nan

/-- JavaScript comparison `x >= 1` (false on NaN). -/
def jsGe1 : JSNum → Bool
  | JSNum.nan => false
  | JSNum.inf => true
  | JSNum.ninf => false
  | JSNum.fin q => decide (1 ≤ q)

/-! ## Acting component (`acting.ts`) -/

/-- Data of the `Acting` component: `start`, `duration`, `completion`. -/
structure JSLock where
  start : JSNum
  duration : JSNum
  completion : JSNum
deriving DecidableEq, Repr

/-- One entity's step of `updateActingCompletion`: add `delta / duration`
to the completion; if the result reads as `>= 1`, write `1` and report
that the component is removed. -/
def advanceLock (delta : JSNum) (l : JSLock) : JSLock × Bool :=
  let c := jsAdd l.completion (jsDiv delta l.duration)
  if jsGe1 c then ({ l with completion := JSNum.fin 1 }, true)
  else ({ l with completion := c }, false)

/-- `updateActingCompletion(world)` over the store of locked entities:
advance every lock by `delta` and drop the completed ones. -/
def updateActingCompletion (delta : JSNum) (store : List (EntityId × JSLock)) :
    List (EntityId × JSLock) :=
  store.filterMap fun el =>
    let r := advanceLock delta el.2
    if r.2 then none else some (el.1, r.1)

/-! ## Entity/relation world model -/

/-- JavaScript `===` on possibly-undefined numbers (`undefined === undefined`
is true, a number never equals `undefined`). -/
def jsEqOpt {α : Type} [BEq α] : Option α → Option α → Bool
  | some x, some y => x == y
  | none, none => true
  | _, _ => false

/-- JavaScript `>` on possibly-undefined numbers (false whenever either
side is `undefined`). -/
def jsGtOpt : Option Int → Option Int → Bool
  | some x, some y => decide (y < x)
  | _, _ => false

/-- JavaScript `<` on possibly-undefined numbers. -/
def jsLtOpt : Option Int → Option Int → Bool
  | some x, some y => decide (x < y)
  | _, _ => false

/-- `Array.from(new Set(xs))`: first-occurrence deduplication. -/
def jsDedup : List Int → List Int :=
  go []
where
  /-- Recursive worker carrying the set of values already seen. -/
  go : List Int → List Int → List Int
  | _, [] => []
  | seen, x :: xs => if x ∈ seen then go seen xs else x :: go (x :: seen) xs

/-- The shared entity/relation graph, restricted to the component and
relation stores the core systems read and write.  Sparse component
arrays become total functions out of `EntityId`; the lists record which
entities currently carry each component, in creation order (the order
`query` yields).  `ChildOf`, `GoingTo`/`DestinedTo`, `Boarding` and
`Exiting` are exclusive relations, hence `Option EntityId` per subject.
The `Acting` component is kept here only as presence plus duration,
which is all the dispatch systems observe. -/
structure World where
  nextId : EntityId
  entities : List EntityId
  elevators : List EntityId
  elevIndex : EntityId → Int
  elevState : EntityId → String
  elevQueue : EntityId → List Int
  elevDir : EntityId → String
  passengers : List EntityId
  passState : EntityId → String
  passIndex : EntityId → Nat
  floors : List EntityId
  floorIndex : EntityId → Option Int
  childOf : EntityId → Option EntityId
  destinedTo : EntityId → Option EntityId
  boardingRel : EntityId → Option EntityId
  exitingRel : EntityId → Option EntityId
  acting : EntityId → Option Int

/-- `setActing(world, id, { duration })` / `setComponent(world, id, Acting,
{ duration })`: attach (or refresh) the timed lock. -/
def setActing (w : World) (e : EntityId) (d : Int) : World :=
  { w with acting := Function.update w.acting e (some d) }

/-- Entities of `l` without an `Acting` component: the snapshot
`query(world, [C, Not(Acting)])` materialised before a system loop runs. -/
def unlockedSnapshot (w : World) (l : List EntityId) : List EntityId :=
  l.filter fun x => (w.acting x).isNone

namespace V1

/-- Optional fields of a `Partial<Data<typeof Elevator>>` argument. -/
structure ElevData where
  index : Option Int := none
  state : Option String := none
  queue : Option (List Int) := none

/-- `setElevator` (first iteration): add the component if missing, merge
the given fields, deduplicate the queue and recompute `direction` from
the queue head and the index of the current `ChildOf` floor ("none" when
the queue is empty or the head equals the current index). -/
def setElevator (w : World) (e : EntityId) (d : ElevData) : World :=
  let elevators := if e ∈ w.elevators then w.elevators else w.elevators ++ [e]
  let idx : Option Int := (w.childOf e).bind w.floorIndex
  let index := d.index.getD (w.elevIndex e)
  let state := d.state.getD (w.elevState e)
  let queue := jsDedup (d.queue.getD (w.elevQueue e))
  let dir :=
    if queue.isEmpty then "none"
    else if jsGtOpt queue.head? idx then "up"
    else if jsLtOpt queue.head? idx then "down"
    else "none"
  { w with
    elevators := elevators
    elevIndex := Function.update w.elevIndex e index
    elevState := Function.update w.elevState e state
    elevQueue := Function.update w.elevQueue e queue
    elevDir := Function.update w.elevDir e dir }

/-- `setPassenger` (first iteration). -/
def setPassenger (w : World) (p : EntityId) (state : Option String) : World :=
  let passengers := if p ∈ w.passengers then w.passengers else w.passengers ++ [p]
  { w with
    passengers := passengers
    passState := Function.update w.passState p (state.getD (w.passState p)) }

/-- Shared tail of the `closed` and `moving` cases of `updateElevatorState`:
pop-and-open when the queue head `===` the current floor index, otherwise
hop one floor toward the head (throwing when the next floor is missing). -/
def hopOrOpen (w : World) (e : EntityId) (q : List Int) (idx : Option Int) :
    Except String World :=
  if jsEqOpt q.head? idx then
    Except.ok (setActing (setElevator w e { state := some "opening", queue := some q.tail }) e 1000)
  else
    let dir : Int := if jsGtOpt q.head? idx then 1 else -1
    match idx with
    | none => Except.error "Next floor index not found"
    | some i =>
      match w.floors.find? (fun f => w.floorIndex f == some (i + dir)) with
      | none => Except.error "Next floor index not found"
      | some nid =>
        Except.ok (setActing
          (setElevator { w with childOf := Function.update w.childOf e (some nid) } e
            { state := some "moving" }) e 1000)

/-- Body of the `updateElevatorState` loop (first iteration) for one
unlocked elevator. -/
def elevStep (w : World) (e : EntityId) : Except String World :=
  if w.elevState e = "closed" then
    let q := w.elevQueue e
    if q.isEmpty then Except.ok w
    else hopOrOpen w e q ((w.childOf e).bind w.floorIndex)
  else if w.elevState e = "opening" then
    Except.ok (setElevator w e { state := some "open" })
  else if w.elevState e = "open" then
    let busy := w.passengers.any fun p =>
      w.childOf p == some e && w.passState p != "riding"
    if busy then Except.ok w
    else Except.ok (setActing (setElevator w e { state := some "closing" }) e 1000)
  else if w.elevState e = "closing" then
    Except.ok (setActing (setElevator w e { state := some "closed" }) e 1000)
  else if w.elevState e = "moving" then
    hopOrOpen w e (w.elevQueue e) ((w.childOf e).bind w.floorIndex)
  else Except.ok w

/-- `updateElevatorState` (first iteration): run the state machine over
every elevator without an `Acting` lock. -/
def updateElevatorState (w : World) : Except String World :=
  (unlockedSnapshot w w.elevators).foldlM elevStep w

end V1

/-- Destruction of a passenger entity (`removeEntity` plus cascade removal
of its components and relation edges), as performed by both lifecycle
passes on unlocked exiting passengers. -/
def destroyPassenger (w : World) (p : EntityId) : World :=
  { w with
    entities := w.entities.erase p
    passengers := w.passengers.erase p
    childOf := Function.update w.childOf p none
    destinedTo := Function.update w.destinedTo p none
    acting := Function.update w.acting p none }

/-- The reap phase shared by both `managePassengerLifecycle` versions:
destroy every unlocked passenger found in state "exiting". -/
def reapPassengers (w : World) : World :=
  (unlockedSnapshot w w.passengers).foldl
    (fun w p => if w.passState p == "exiting" then destroyPassenger w p else w) w

namespace V1

/-- One iteration of the spawn loop of `managePassengerLifecycle` (first
iteration): pick an origin floor and a distinct destination floor from the
captured `floorIds` using the two random draws, create the passenger
(waiting, located at the origin, destined to the destination, locked for
1000), and, when an elevator exists, push the origin floor's index onto
its queue through `setElevator`.  Out-of-range draws and index-less
floors are modelled as errors. -/
def spawnStep (w : World) (r1 r2 : Nat) (floorIds : List EntityId) :
    Except String World :=
  match floorIds.get? r1 with
  | none => Except.error "random floor index out of range"
  | some fid =>
    match (floorIds.filter fun f => f != fid).get? r2 with
    | none => Except.error "random destination index out of range"
    | some did =>
      let pid := w.nextId
      let w1 := { w with
        nextId := pid + 1
        entities := w.entities ++ [pid]
        childOf := Function.update w.childOf pid (some fid)
        destinedTo := Function.update w.destinedTo pid (some did) }
      let w2 := setActing (setPassenger w1 pid (some "waiting")) pid 1000
      match w2.elevators.head? with
      | none => Except.ok w2
      | some e =>
        match w2.floorIndex fid with
        | none => Except.error "floor without index"
        | some fi =>
          Except.ok (setElevator w2 e { queue := some (w2.elevQueue e ++ [fi]) })

/-- `managePassengerLifecycle` (first iteration): reap unlocked exiting
passengers, then spawn passengers until the live count reaches 100, the
i-th spawn consuming the random pair `rngs i`. -/
def managePassengerLifecycle (w : World) (rngs : Nat → Nat × Nat) :
    Except String World :=
  let w1 := reapPassengers w
  let count := w1.passengers.length
  let floorIds := w1.floors
  (List.range (100 - count)).foldlM
    (fun wa i => spawnStep wa (rngs i).1 (rngs i).2 floorIds) w1

end V1

namespace V2

/-- `updateElevatorDirection`: for every elevator (locked or not), throw
when it has no `ChildOf` floor, otherwise recompute `direction` as "idle"
when the queue is empty, "up" when the head is greater than the current
floor index and "down" otherwise. -/
def dirStep (w : World) (e : EntityId) : Except String World :=
  match w.childOf e with
  | none => Except.error "Expected elevator to be on a floor"
  | some fid =>
    let idx := w.floorIndex fid
    let q := w.elevQueue e
    let dir := if q.isEmpty then "idle" else if jsGtOpt q.head? idx then "up" else "down"
    Except.ok { w with elevDir := Function.update w.elevDir e dir }

/-- The `updateElevatorDirection` pass (second iteration). -/
def updateElevatorDirection (w : World) : Except String World :=
  w.elevators.foldlM dirStep w

/-- Body of `updateElevatorOpenState` for one unlocked elevator: close
(with a lock) exactly when no entity has a `Boarding` or `Exiting`
relation edge to this elevator. -/
def openStep (w : World) (e : EntityId) : World :=
  if w.elevState e = "open" then
    let transiting := w.entities.filter fun x =>
      w.boardingRel x == some e || w.exitingRel x == some e
    if transiting.isEmpty then
      setActing { w with elevState := Function.update w.elevState e "closing" } e 1000
    else w
  else w

/-- `updateElevatorOpenState` (second iteration). -/
def updateElevatorOpenState (w : World) : World :=
  (unlockedSnapshot w w.elevators).foldl openStep w

/-- Body of `updateElevatorClosingState` for one unlocked elevator:
become "closed" when the queue is empty or its head differs from the
current floor index, otherwise pop the head, become "opening" and lock. -/
def closingStep (w : World) (e : EntityId) : World :=
  if w.elevState e = "closing" then
    let idx := (w.childOf e).bind w.floorIndex
    let q := w.elevQueue e
    if q.isEmpty || !jsEqOpt q.head? idx then
      { w with elevState := Function.update w.elevState e "closed" }
    else
      setActing
        { w with
          elevState := Function.update w.elevState e "opening"
          elevQueue := Function.update w.elevQueue e q.tail } e 1000
  else w

/-- `updateElevatorClosingState` (second iteration). -/
def updateElevatorClosingState (w : World) : World :=
  (unlockedSnapshot w w.elevators).foldl closingStep w

/-- Body of `updateElevatorMovingState` for one unlocked elevator: close
when the queue is empty, pop-and-open when the head equals the current
floor index, otherwise hop one floor toward the head (throwing when the
next floor cannot be found). -/
def movingStep (w : World) (e : EntityId) : Except String World :=
  if w.elevState e = "moving" then
    let idx := (w.childOf e).bind w.floorIndex
    let q := w.elevQueue e
    if q.isEmpty then
      Except.ok { w with elevState := Function.update w.elevState e "closed" }
    else if jsEqOpt q.head? idx then
      Except.ok (setActing
        { w with
          elevState := Function.update w.elevState e "opening"
          elevQueue := Function.update w.elevQueue e q.tail } e 1000)
    else
      let dir : Int := if jsGtOpt q.head? idx then 1 else -1
      match idx with
      | none => Except.error "Expected floor index to be found"
      | some i =>
        match w.floors.find? (fun f => w.floorIndex f == some (i + dir)) with
        | none => Except.error "Expected floor index to be found"
        | some nid =>
          Except.ok (setActing
            { w with
              childOf := Function.update w.childOf e (some nid)
              elevState := Function.update w.elevState e "moving" } e 1000)
  else Except.ok w

/-- `updateElevatorMovingState` (second iteration). -/
def updateElevatorMovingState (w : World) : Except String World :=
  (unlockedSnapshot w w.elevators).foldlM movingStep w

/-- Body of the `updatePassengerState` loop (second iteration) for one
unlocked passenger. -/
def passStep (w : World) (p : EntityId) : Except String World :=
  if w.passState p = "waiting" then
    match w.childOf p with
    | none => Except.ok w
    | some fid =>
      match w.elevators.find? (fun e => w.childOf e == some fid) with
      | none => Except.ok w
      | some e =>
        if w.elevState e ≠ "open" then Except.ok w
        else
          Except.ok (setActing
            { w with
              passState := Function.update w.passState p "boarding"
              childOf := Function.update w.childOf p (some e) } p 1000)
  else if w.passState p = "boarding" then
    match w.childOf p with
    | none => Except.error "boarding passenger is on no elevator"
    | some e =>
      match (w.destinedTo p).bind w.floorIndex with
      | none => Except.error "destination floor without index"
      | some di =>
        Except.ok
          { w with
            passState := Function.update w.passState p "riding"
            elevQueue := Function.update w.elevQueue e (w.elevQueue e ++ [di]) }
  else if w.passState p = "riding" then
    let elevatorId := w.childOf p
    let destinationId := w.destinedTo p
    let floorId := elevatorId.bind w.childOf
    if !jsEqOpt floorId destinationId then Except.ok w
    else
      match elevatorId with
      | none => Except.ok w
      | some e =>
        if w.elevState e ≠ "open" then Except.ok w
        else
          Except.ok (setActing
            { w with
              passState := Function.update w.passState p "exiting"
              childOf := Function.update w.childOf p floorId } p 1000)
  else Except.ok w

/-- `updatePassengerState` (second iteration): run the state machine over
every passenger without an `Acting` lock. -/
def updatePassengerState (w : World) : Except String World :=
  (unlockedSnapshot w w.passengers).foldlM passStep w

/-- The spawn tail of `managePassengerLifecycle` (second iteration):
create one passenger on a random floor with a random distinct
destination, locked for 1000, and append the origin floor's index to the
(required) elevator's queue.  Out-of-range draws and index-less floors
are modelled as errors. -/
def spawnStep (w : World) (r1 r2 : Nat) : Except String World :=
  match w.floors.get? r1 with
  | none => Except.error "random floor index out of range"
  | some fid =>
    match (w.floors.filter fun f => f != fid).get? r2 with
    | none => Except.error "random destination index out of range"
    | some did =>
      let idx := (w.passengers.filter fun p => w.childOf p == some fid).length
      let pid := w.nextId
      let w1 := { w with
        nextId := pid + 1
        entities := w.entities ++ [pid]
        passengers := w.passengers ++ [pid]
        childOf := Function.update w.childOf pid (some fid)
        destinedTo := Function.update w.destinedTo pid (some did)
        passState := Function.update w.passState pid "waiting"
        passIndex := Function.update w.passIndex pid idx }
      let w2 := setActing w1 pid 1000
      match w2.elevators.head? with
      | none => Except.error "Expected at least 1 elevator"
      | some e =>
        match w2.floorIndex fid with
        | none => Except.error "floor without index"
        | some fi =>
          Except.ok { w2 with elevQueue := Function.update w2.elevQueue e (w2.elevQueue e ++ [fi]) }

/-- `managePassengerLifecycle` (second iteration): reap unlocked exiting
passengers; then, when fewer than 100 passengers remain and the gate draw
`random(2000)` is at most 10, spawn a single passenger. -/
def managePassengerLifecycle (w : World) (rGate r1 r2 : Nat) :
    Except String World :=
  let w1 := reapPassengers w
  if w1.passengers.length ≥ 100 then Except.ok w1
  else if rGate > 10 then Except.ok w1
  else spawnStep w1 r1 r2

end V2

/-! ## Theorems about the acting gate (claims C3, C4, C5) -/

theorem key_unique {α β : Type} {store : List (α × β)}
    (h : (store.map Prod.fst).Nodup) {a : α} {b c : β}
    (hb : (a, b) ∈ store) (hc : (a, c) ∈ store) : b = c := by
  induction store with
  | nil => cases hb
  | cons hd tl ih =>
    simp only [List.map_cons, List.nodup_cons] at h
    rcases List.mem_cons.mp hb with rfl | hb'
    · rcases List.mem_cons.mp hc with heq | hc'
      · exact (congrArg Prod.snd heq).symm
      · exact absurd (List.mem_map_of_mem Prod.fst hc') (by simpa using h.1)
    · rcases List.mem_cons.mp hc with rfl | hc'
      · exact absurd (List.mem_map_of_mem Prod.fst hb') (by simpa using h.1)
      · exact ih h.2 hb' hc'

/-- C3: for every locked entity, one call of the gate's advance with
elapsed time `delta` moves its completion to exactly
`completion + delta / duration`; whenever that result reads as `>= 1`,
the written completion is exactly 1 and the entry is removed from the
lock store. -/
theorem C3_acting_advance_exact (delta : JSNum) (store : List (EntityId × JSLock))
    (e : EntityId) (l : JSLock) (hmem : (e, l) ∈ store)
    (hkeys : (store.map Prod.fst).Nodup) :
    (jsGe1 (jsAdd l.completion (jsDiv delta l.duration)) = false →
      (e, { l with completion := jsAdd l.completion (jsDiv delta l.duration) }) ∈
        updateActingCompletion delta store) ∧
    (jsGe1 (jsAdd l.completion (jsDiv delta l.duration)) = true →
      (advanceLock delta l).1.completion = JSNum.fin 1 ∧
        e ∉ (updateActingCompletion delta store).map Prod.fst) := by
  constructor
  · intro hlt
    refine List.mem_filterMap.mpr ⟨(e, l), hmem, ?_⟩
    simp [advanceLock, hlt]
  · intro hge
    refine ⟨by simp [advanceLock, hge], ?_⟩
    intro hcon
    obtain ⟨p, hp, hpe⟩ := List.mem_map.mp hcon
    obtain ⟨q, hq, hfq⟩ := List.mem_filterMap.mp hp
    by_cases hrem : (advanceLock delta q.2).2
    · simp [hrem] at hfq
    · simp only [hrem, Bool.false_eq_true, if_false, Option.some.injEq] at hfq
      have hqe : q.1 = e := by rw [← hpe, ← hfq]
      have hql : q.2 = l := key_unique hkeys (hqe ▸ (Prod.mk.eta ▸ hq)) hmem
      rw [hql] at hrem
      simp [advanceLock, hge] at hrem

/-- Concrete lock store for the acting-gate witnesses. -/
def actingStoreW : List (EntityId × JSLock) :=
  [(5, ⟨JSNum.fin 0, JSNum.fin 2, JSNum.fin 0⟩)]

/-- Lock of the acting-gate witness store. -/
def actingLockW : JSLock := ⟨JSNum.fin 0, JSNum.fin 2, JSNum.fin 0⟩

theorem C3_acting_advance_exact_witness :
    ((5, actingLockW) ∈ actingStoreW) ∧
    ((actingStoreW.map Prod.fst).Nodup) ∧
    (updateActingCompletion (JSNum.fin 1) actingStoreW =
      [(5, ⟨JSNum.fin 0, JSNum.fin 2, JSNum.fin (1/2)⟩)]) ∧
    ((jsGe1 (jsAdd actingLockW.completion (jsDiv (JSNum.fin 1) actingLockW.duration)) = false →
      (5, { actingLockW with
        completion := jsAdd actingLockW.completion (jsDiv (JSNum.fin 1) actingLockW.duration) }) ∈
        updateActingCompletion (JSNum.fin 1) actingStoreW) ∧
    (jsGe1 (jsAdd actingLockW.completion (jsDiv (JSNum.fin 1) actingLockW.duration)) = true →
      (advanceLock (JSNum.fin 1) actingLockW).1.completion = JSNum.fin 1 ∧
        5 ∉ (updateActingCompletion (JSNum.fin 1) actingStoreW).map Prod.fst)) :=
  ⟨by simp [actingStoreW, actingLockW], by simp [actingStoreW],
    by
      have h : advanceLock (JSNum.fin 1) ⟨JSNum.fin 0, JSNum.fin 2, JSNum.fin 0⟩ =
          (⟨JSNum.fin 0, JSNum.fin 2, JSNum.fin (1/2)⟩, false) := by
        norm_num [advanceLock, jsAdd, jsDiv, jsGe1]
      simp [actingStoreW, actingLockW, updateActingCompletion, h, one_div],
    C3_acting_advance_exact (JSNum.fin 1) actingStoreW 5 actingLockW
      (by simp [actingStoreW, actingLockW]) (by simp [actingStoreW])⟩

/-- C4: the claim (a lock with `duration <= 0` is removed by the very next
advance call) fails on the code: with duration -1000 an advance by 16 drives
completion to -2/125 and keeps the lock, and with duration 0 an advance by 0
drives completion to NaN and keeps the lock; in both stores the lock
survives the advance that the claim says must remove it. -/
theorem C4_nonpositive_duration_lock_survives :
    updateActingCompletion (JSNum.fin 16)
        [(0, ⟨JSNum.fin 0, JSNum.fin (-1000), JSNum.fin 0⟩)] =
      [(0, ⟨JSNum.fin 0, JSNum.fin (-1000), JSNum.fin (-2/125)⟩)] ∧
    updateActingCompletion (JSNum.fin 0)
        [(0, ⟨JSNum.fin 0, JSNum.fin 0, JSNum.fin 0⟩)] =
      [(0, ⟨JSNum.fin 0, JSNum.fin 0, JSNum.nan⟩)] := by
  have h1 : advanceLock (JSNum.fin 16) ⟨JSNum.fin 0, JSNum.fin (-1000), JSNum.fin 0⟩ =
      (⟨JSNum.fin 0, JSNum.fin (-1000), JSNum.fin (-2/125)⟩, false) := by
    norm_num [advanceLock, jsAdd, jsDiv, jsGe1]
  have h2 : advanceLock (JSNum.fin 0) ⟨JSNum.fin 0, JSNum.fin 0, JSNum.fin 0⟩ =
      (⟨JSNum.fin 0, JSNum.fin 0, JSNum.nan⟩, false) := by
    norm_num [advanceLock, jsAdd, jsDiv, jsGe1]
  constructor
  · simp [updateActingCompletion, h1]
  · simp [updateActingCompletion, h2]

/-- C5 counterexample: a locked entity with duration 0 has its completion
changed (to NaN) by an advance with `deltaTime = 0`, so the advance is not
an identity on the lock store for every duration. -/
theorem C5_counterexample_zero_duration :
    updateActingCompletion (JSNum.fin 0)
        [(0, ⟨JSNum.fin 0, JSNum.fin 0, JSNum.fin 0⟩)] =
      [(0, ⟨JSNum.fin 0, JSNum.fin 0, JSNum.nan⟩)] ∧
    JSNum.nan ≠ JSNum.fin 0 := by
  have h2 : advanceLock (JSNum.fin 0) ⟨JSNum.fin 0, JSNum.fin 0, JSNum.fin 0⟩ =
      (⟨JSNum.fin 0, JSNum.fin 0, JSNum.nan⟩, false) := by
    norm_num [advanceLock, jsAdd, jsDiv, jsGe1]
  exact ⟨by simp [updateActingCompletion, h2], by simp⟩

/-- C5 (amended): advancing the gate with `deltaTime = 0` leaves every
lock whose duration is a nonzero finite number and whose completion is a
finite value below 1 unchanged and still present in the store. -/
theorem C5_amended_zero_delta_identity (store : List (EntityId × JSLock))
    (e : EntityId) (l : JSLock) (d c : ℚ)
    (hmem : (e, l) ∈ store) (hd : l.duration = JSNum.fin d) (hd0 : d ≠ 0)
    (hc : l.completion = JSNum.fin c) (hc1 : c < 1) :
    (e, l) ∈ updateActingCompletion (JSNum.fin 0) store := by
  have hstep : advanceLock (JSNum.fin 0) l = (l, false) := by
    obtain ⟨s, du, co⟩ := l
    simp only [JSLock.mk.injEq] at hd hc
    subst hd hc
    simp [advanceLock, jsDiv, jsAdd, hd0, jsGe1, not_le.mpr hc1]
  refine List.mem_filterMap.mpr ⟨(e, l), hmem, ?_⟩
  simp [hstep]

/-- Lock for the C5 witness. -/
def lockW5 : JSLock := ⟨JSNum.fin 0, JSNum.fin 1000, JSNum.fin (1/4)⟩

/-- Store for the C5 witness. -/
def lockStoreW5 : List (EntityId × JSLock) := [(3, lockW5)]

theorem C5_amended_zero_delta_identity_witness :
    (((3 : EntityId), lockW5) ∈ lockStoreW5) ∧
    ((1000 : ℚ) ≠ 0) ∧ ((1/4 : ℚ) < 1) ∧
    (((3 : EntityId), lockW5) ∈ updateActingCompletion (JSNum.fin 0) lockStoreW5) :=
  ⟨by simp [lockStoreW5], by norm_num, by norm_num,
    C5_amended_zero_delta_identity lockStoreW5 3 lockW5 1000 (1/4)
      (by simp [lockStoreW5]) rfl (by norm_num) rfl (by norm_num)⟩

/-! ## Generic lemmas about system loops -/

theorem foldlM_ok_preserves {σ : Type} {step : σ → EntityId → Except String σ}
    (P : σ → Prop) :
    ∀ (L : List EntityId),
      (∀ v x, x ∈ L → P v → ∀ v1, step v x = Except.ok v1 → P v1) →
      ∀ (w w' : σ), P w → List.foldlM step w L = Except.ok w' → P w' := by
  intro L
  induction L with
  | nil =>
    intro _ w w' hP h
    simp only [List.foldlM_nil, Except.pure] at h; cases h; exact hP
  | cons x xs ih =>
    intro hstep w w' hP h
    rw [List.foldlM_cons] at h
    cases hstep1 : step w x with
    | error s => rw [hstep1] at h; cases h
    | ok w1 =>
      rw [hstep1] at h
      exact ih (fun v y hy => hstep v y (List.mem_cons_of_mem x hy)) w1 w'
        (hstep w x (List.mem_cons_self x xs) hP w1 hstep1) h

theorem foldl_preserves {σ : Type} {step : σ → EntityId → σ}
    (P : σ → Prop) :
    ∀ (L : List EntityId), (∀ v x, x ∈ L → P v → P (step v x)) →
      ∀ (w : σ), P w → P (List.foldl step w L) := by
  intro L
  induction L with
  | nil => intro _ w hP; exact hP
  | cons x xs ih =>
    intro hstep w hP
    exact ih (fun v y hy => hstep v y (List.mem_cons_of_mem x hy)) (step w x)
      (hstep w x (List.mem_cons_self x xs) hP)

/-! ## Direction update (claim C1) -/

/-- The value `updateElevatorDirection` writes for one elevator, as a pure
function of its queue and the index of its `ChildOf` floor. -/
def dirVal (w : World) (e : EntityId) : String :=
  let idx := (w.childOf e).bind w.floorIndex
  let q := w.elevQueue e
  if q.isEmpty then "idle" else if jsGtOpt q.head? idx then "up" else "down"

theorem dirStep_ok {w w1 : World} {e : EntityId}
    (h : V2.dirStep w e = Except.ok w1) :
    w1 = { w with elevDir := Function.update w.elevDir e (dirVal w e) } := by
  unfold V2.dirStep at h
  cases hc : w.childOf e with
  | none => rw [hc] at h; cases h
  | some fid =>
    rw [hc] at h
    simp only [Except.ok.injEq] at h
    rw [← h]
    simp [dirVal, hc]

theorem dirFold (L : List EntityId) (w w' : World)
    (h : List.foldlM V2.dirStep w L = Except.ok w') :
    w'.childOf = w.childOf ∧ w'.floorIndex = w.floorIndex ∧
      w'.elevQueue = w.elevQueue ∧ w'.elevators = w.elevators ∧
      (∀ e ∈ L, w'.elevDir e = dirVal w e) ∧
      (∀ e, e ∉ L → w'.elevDir e = w.elevDir e) := by
  induction L generalizing w with
  | nil =>
    simp only [List.foldlM_nil, Except.pure] at h; cases h
    exact ⟨rfl, rfl, rfl, rfl, by simp, fun e _ => rfl⟩
  | cons x xs ih =>
    rw [List.foldlM_cons] at h
    cases hstep1 : V2.dirStep w x with
    | error s => rw [hstep1] at h; cases h
    | ok w1 =>
      rw [hstep1] at h
      have hw1 := dirStep_ok hstep1
      obtain ⟨h1, h2, h3, h4, h5, h6⟩ := ih w1 h
      subst hw1
      have hdv : ∀ y, dirVal { w with elevDir := Function.update w.elevDir x (dirVal w x) } y = dirVal w y := by
        intro y; simp [dirVal]
      refine ⟨h1, h2, h3, h4, ?_, ?_⟩
      · intro e he
        rcases List.mem_cons.mp he with rfl | hexs
        · by_cases hx : e ∈ xs
          · rw [h5 e hx, hdv]
          · rw [h6 e hx]; simp [Function.update_same, hdv]
        · rw [h5 e hexs, hdv]
      · intro e he
        have hex : e ≠ x := fun heq => he (heq ▸ List.mem_cons_self x xs)
        have hexs : e ∉ xs := fun hin => he (List.mem_cons_of_mem x hin)
        rw [h6 e hexs]; simp [Function.update_noteq hex]

/-- C1: after the per-tick direction update, every elevator's `direction`
equals the pure function of its queue and current floor index: "idle"
when the queue is empty, "up" when the queue head is greater than the
current floor index, and "down" otherwise (including when the head equals
the index). -/
theorem C1_direction_pure_function (w w' : World) (e f : EntityId) (i : Int)
    (hok : V2.updateElevatorDirection w = Except.ok w')
    (he : e ∈ w.elevators) (hf : w.childOf e = some f) (hi : w.floorIndex f = some i) :
    (w.elevQueue e = [] → w'.elevDir e = "idle") ∧
    (∀ h t, w.elevQueue e = h :: t →
      w'.elevDir e = if i < h then "up" else "down") := by
  obtain ⟨-, -, -, -, h5, -⟩ := dirFold w.elevators w w' hok
  have hdir := h5 e he
  constructor
  · intro hq
    rw [hdir]; simp [dirVal, hq]
  · intro h t hq
    rw [hdir]
    simp only [dirVal, hq, hf, hi, Option.bind_some, List.isEmpty_cons, List.head?_cons]
    by_cases hlt : i < h
    · simp [jsGtOpt, hi, hlt]
    · simp [jsGtOpt, hi, hlt]

/-- Concrete world for the direction-update witness: three elevators on
floors 0, 1 and 2 with queues `[]`, `[2]` and `[2]`. -/
def WC1 : World := {
  nextId := 30
  entities := [0, 1, 2, 10, 11, 12]
  elevators := [0, 1, 2]
  elevIndex := fun _ => 0
  elevState := fun _ => "closed"
  elevQueue := fun e => if e = 0 then [] else [2]
  elevDir := fun _ => "none"
  passengers := []
  passState := fun _ => "waiting"
  passIndex := fun _ => 0
  floors := [10, 11, 12]
  floorIndex := fun f => if f = 10 then some 0 else if f = 11 then some 1 else
    if f = 12 then some 2 else none
  childOf := fun e => if e = 0 then some 10 else if e = 1 then some 11 else
    if e = 2 then some 12 else none
  destinedTo := fun _ => none
  boardingRel := fun _ => none
  exitingRel := fun _ => none
  acting := fun _ => none }

/-- The world `updateElevatorDirection` produces from `WC1`. -/
def WC1run : World :=
  { WC1 with
    elevDir := Function.update (Function.update
      (Function.update WC1.elevDir 0 "idle") 1 "up") 2 "down" }

theorem C1_direction_pure_function_witness :
    (V2.updateElevatorDirection WC1 = Except.ok WC1run) ∧
    (2 ∈ WC1.elevators) ∧ (WC1.childOf 2 = some 12) ∧
    (WC1.floorIndex 12 = some 2) ∧ (WC1.elevQueue 2 = [2]) ∧
    ((WC1.elevQueue 2 = [] → WC1run.elevDir 2 = "idle") ∧
      (∀ h t, WC1.elevQueue 2 = h :: t →
        WC1run.elevDir 2 = if (2 : Int) < h then "up" else "down")) ∧
    (WC1run.elevDir 2 = "down") ∧ (WC1run.elevDir 1 = "up") ∧
    (WC1run.elevDir 0 = "idle") := by
  refine ⟨?_, by decide, by decide, by decide, by decide, ?_, by decide, by decide, by decide⟩
  · rfl
  · exact C1_direction_pure_function WC1 WC1run 2 12 2 rfl (by decide) rfl rfl

/-! ## Locked entities are untouched by the state machines (claim C2) -/

theorem hopOrOpen_elevState_local {w w1 : World} {x : EntityId}
    {q : List Int} {idx : Option Int}
    (h : V1.hopOrOpen w x q idx = Except.ok w1) :
    ∀ y, y ≠ x → w1.elevState y = w.elevState y := by
  intro y hy
  cases idx with
  | none =>
    unfold V1.hopOrOpen at h
    dsimp only at h
    split at h
    · cases h
      simp [setActing, V1.setElevator, Function.update_noteq hy]
    · cases h
  | some i =>
    unfold V1.hopOrOpen at h
    dsimp only at h
    split at h
    · cases h
      simp [setActing, V1.setElevator, Function.update_noteq hy]
    · cases hf : List.find?
        (fun f => w.floorIndex f ==
          some (i + if jsGtOpt q.head? (some i) then 1 else -1)) w.floors with
      | none => rw [hf] at h; cases h
      | some nid =>
        rw [hf] at h
        cases h
        simp [setActing, V1.setElevator, Function.update_noteq hy]

theorem elevStep_elevState_local {w w1 : World} {x : EntityId}
    (h : V1.elevStep w x = Except.ok w1) :
    ∀ y, y ≠ x → w1.elevState y = w.elevState y := by
  intro y hy
  unfold V1.elevStep at h
  dsimp only at h
  split at h
  · split at h
    · cases h; rfl
    · exact hopOrOpen_elevState_local h y hy
  · split at h
    · cases h
      simp [V1.setElevator, Function.update_noteq hy]
    · split at h
      · split at h
        · cases h; rfl
        · cases h
          simp [setActing, V1.setElevator, Function.update_noteq hy]
      · split at h
        · cases h
          simp [setActing, V1.setElevator, Function.update_noteq hy]
        · split at h
          · exact hopOrOpen_elevState_local h y hy
          · cases h; rfl

theorem passStep_passState_local {w w1 : World} {x : EntityId}
    (h : V2.passStep w x = Except.ok w1) :
    ∀ y, y ≠ x → w1.passState y = w.passState y := by
  intro y hy
  unfold V2.passStep at h
  dsimp only at h
  split at h
  · split at h
    · cases h; rfl
    · split at h
      · cases h; rfl
      · split at h
        · cases h; rfl
        · cases h
          simp [setActing, Function.update_noteq hy]
  · split at h
    · split at h
      · cases h
      · split at h
        · cases h
        · cases h
          simp [Function.update_noteq hy]
    · split at h
      · split at h
        · cases h; rfl
        · split at h
          · cases h; rfl
          · split at h
            · cases h; rfl
            · cases h
              simp [setActing, Function.update_noteq hy]
      · cases h; rfl

/-- C2: an entity carrying an `Acting` lock when its owning state-machine
pass runs is left with its state component unchanged by that pass: a
locked elevator's `Elevator.state` is unchanged by `updateElevatorState`
(first iteration) and a locked passenger's `Passenger.state` is unchanged
by `updatePassengerState` (second iteration). -/
theorem C2_locked_state_unchanged (w : World) (e : EntityId)
    (hl : (w.acting e).isSome) :
    (∀ w', V1.updateElevatorState w = Except.ok w' → w'.elevState e = w.elevState e) ∧
    (∀ w', V2.updatePassengerState w = Except.ok w' → w'.passState e = w.passState e) := by
  have hnotmem : ∀ l : List EntityId, e ∉ unlockedSnapshot w l := by
    intro l hmem
    have := List.of_mem_filter hmem
    rw [Option.isNone_iff_eq_none] at this
    rw [this] at hl
    cases hl
  constructor
  · intro w' hok
    exact foldlM_ok_preserves (fun v => v.elevState e = w.elevState e)
      (unlockedSnapshot w w.elevators)
      (fun v x hx hP v1 h1 =>
        (elevStep_elevState_local h1 e
          (fun heq => hnotmem w.elevators (heq ▸ hx))).trans hP)
      w w' rfl hok
  · intro w' hok
    exact foldlM_ok_preserves (fun v => v.passState e = w.passState e)
      (unlockedSnapshot w w.passengers)
      (fun v x hx hP v1 h1 =>
        (passStep_passState_local h1 e
          (fun heq => hnotmem w.passengers (heq ▸ hx))).trans hP)
      w w' rfl hok

/-- Concrete world for the C2 witness: elevator 0 is locked (Acting
present), passenger 1 is waiting on floor 10 where the open elevator
stands. -/
def WC2 : World := {
  nextId := 30
  entities := [0, 1, 10, 11]
  elevators := [0]
  elevIndex := fun _ => 0
  elevState := fun _ => "open"
  elevQueue := fun _ => []
  elevDir := fun _ => "none"
  passengers := [1]
  passState := fun _ => "waiting"
  passIndex := fun _ => 0
  floors := [10, 11]
  floorIndex := fun f => if f = 10 then some 0 else if f = 11 then some 1 else none
  childOf := fun e => if e = 0 then some 10 else if e = 1 then some 10 else none
  destinedTo := fun p => if p = 1 then some 11 else none
  boardingRel := fun _ => none
  exitingRel := fun _ => none
  acting := fun e => if e = 0 then some 500 else none }

/-- The world `updatePassengerState` produces from `WC2` (passenger 1
boards the open elevator). -/
def WC2run : World :=
  setActing
    { WC2 with
      passState := Function.update WC2.passState 1 "boarding"
      childOf := Function.update WC2.childOf 1 (some 0) } 1 1000

theorem C2_locked_state_unchanged_witness :
    ((WC2.acting 0).isSome = true) ∧
    (V1.updateElevatorState WC2 = Except.ok WC2) ∧
    (V2.updatePassengerState WC2 = Except.ok WC2run) ∧
    ((∀ w', V1.updateElevatorState WC2 = Except.ok w' →
        w'.elevState 0 = WC2.elevState 0) ∧
      (∀ w', V2.updatePassengerState WC2 = Except.ok w' →
        w'.passState 0 = WC2.passState 0)) ∧
    (WC2run.passState 0 = WC2.passState 0) := by
  refine ⟨by decide, rfl, rfl, C2_locked_state_unchanged WC2 0 (by decide), by decide⟩

/-! ## Closing state (claim C6) -/

/-- Concrete world for C6: a single unlocked elevator in state "closing"
with an empty queue, standing on floor 10. -/
def WC6 : World := {
  nextId := 30
  entities := [0, 10, 11]
  elevators := [0]
  elevIndex := fun _ => 0
  elevState := fun _ => "closing"
  elevQueue := fun _ => []
  elevDir := fun _ => "none"
  passengers := []
  passState := fun _ => "waiting"
  passIndex := fun _ => 0
  floors := [10, 11]
  floorIndex := fun f => if f = 10 then some 0 else if f = 11 then some 1 else none
  childOf := fun e => if e = 0 then some 10 else none
  destinedTo := fun _ => none
  boardingRel := fun _ => none
  exitingRel := fun _ => none
  acting := fun _ => none }

/-- C6 counterexample: in the combined step of the first iteration, the
unlocked closing elevator of `WC6` does transition to "closed", but an
`Acting` lock of duration 1000 is set, refuting "sets no ActingLock". -/
theorem C6_counterexample_closing_sets_lock :
    (V1.updateElevatorState WC6).map (fun w => (w.elevState 0, w.acting 0)) =
      Except.ok ("closed", some 1000) ∧
    WC6.elevState 0 = "closing" ∧ WC6.acting 0 = none := by
  exact ⟨rfl, rfl, rfl⟩

/-- C6 (amended): for an unlocked elevator in state "closing", the first
iteration's step transitions it to "closed" with the floor unchanged and
the queue only passed through deduplication, but it sets an `Acting` lock
of duration 1000; the second iteration's step transitions it to "closed"
with no lock and nothing else changed only when the queue is empty or its
head differs from the current floor index, and otherwise pops the head,
transitions to "opening" and sets a lock. -/
theorem C6_amended_closing_behavior (w : World) (e : EntityId)
    (hs : w.elevState e = "closing") :
    ((V1.elevStep w e).isOk = true) ∧
    (∀ w', V1.elevStep w e = Except.ok w' →
      w'.elevState e = "closed" ∧ w'.acting e = some 1000 ∧
      w'.childOf e = w.childOf e ∧ w'.elevQueue e = jsDedup (w.elevQueue e)) ∧
    ((w.elevQueue e = [] ∨
        jsEqOpt (w.elevQueue e).head? ((w.childOf e).bind w.floorIndex) = false) →
      (V2.closingStep w e).elevState e = "closed" ∧
        (V2.closingStep w e).acting e = w.acting e ∧
        (V2.closingStep w e).elevQueue e = w.elevQueue e ∧
        (V2.closingStep w e).childOf e = w.childOf e) ∧
    ((w.elevQueue e ≠ [] ∧
        jsEqOpt (w.elevQueue e).head? ((w.childOf e).bind w.floorIndex) = true) →
      (V2.closingStep w e).elevState e = "opening" ∧
        (V2.closingStep w e).acting e = some 1000 ∧
        (V2.closingStep w e).elevQueue e = (w.elevQueue e).tail ∧
        (V2.closingStep w e).childOf e = w.childOf e) := by
  have hstep : V1.elevStep w e = Except.ok
      (setActing (V1.setElevator w e { index := none, state := some "closed", queue := none }) e 1000) := by
    simp [V1.elevStep, hs]
  refine ⟨?_, ?_, ?_, ?_⟩
  · rw [hstep]; rfl
  · intro w' h
    rw [hstep] at h
    simp only [Except.ok.injEq] at h
    subst h
    simp [setActing, V1.setElevator]
  · intro hcond
    simp only [V2.closingStep, hs]
    norm_num
    rw [if_pos (by simpa using hcond)]
    simp
  · intro hcond
    simp only [V2.closingStep, hs]
    norm_num
    rw [if_neg (not_or.mpr ⟨hcond.1, by simp [hcond.2]⟩)]
    simp [setActing]

theorem C6_amended_closing_behavior_witness :
    (WC6.elevState 0 = "closing") ∧
    ((V1.elevStep WC6 0).map (fun w => (w.elevState 0, w.acting 0, w.elevQueue 0)) =
      Except.ok ("closed", some 1000, [])) ∧
    ((V2.closingStep WC6 0).elevState 0 = "closed" ∧
      (V2.closingStep WC6 0).acting 0 = none) ∧
    ((WC6.elevQueue 0 = [] ∨
        jsEqOpt (WC6.elevQueue 0).head? ((WC6.childOf 0).bind WC6.floorIndex) = false) →
      (V2.closingStep WC6 0).elevState 0 = "closed" ∧
        (V2.closingStep WC6 0).acting 0 = WC6.acting 0 ∧
        (V2.closingStep WC6 0).elevQueue 0 = WC6.elevQueue 0 ∧
        (V2.closingStep WC6 0).childOf 0 = WC6.childOf 0) := by
  refine ⟨rfl, rfl, ⟨rfl, rfl⟩, ((C6_amended_closing_behavior WC6 0 rfl).2.2).1⟩

/-! ## Open state (claim C7) -/

/-- Concrete world for C7: elevator 0 is open, unlocked, on floor 10;
passenger 1 is located in the elevator in state "boarding"; no entity has
a `Boarding` or `Exiting` relation edge. -/
def WC7 : World := {
  nextId := 30
  entities := [0, 1, 10, 11]
  elevators := [0]
  elevIndex := fun _ => 0
  elevState := fun _ => "open"
  elevQueue := fun _ => []
  elevDir := fun _ => "none"
  passengers := [1]
  passState := fun p => if p = 1 then "boarding" else "waiting"
  passIndex := fun _ => 0
  floors := [10, 11]
  floorIndex := fun f => if f = 10 then some 0 else if f = 11 then some 1 else none
  childOf := fun e => if e = 0 then some 10 else if e = 1 then some 0 else none
  destinedTo := fun p => if p = 1 then some 11 else none
  boardingRel := fun _ => none
  exitingRel := fun _ => none
  acting := fun _ => none }

/-- C7 counterexample: in the second iteration's open-state pass, the
open elevator of `WC7` transitions to "closing" and acquires a lock even
though passenger 1 is located in it with state "boarding" (different from
"riding"), refuting "the elevator remains Open with no lock set". -/
theorem C7_counterexample_closes_on_boarding :
    ((V2.updateElevatorOpenState WC7).elevState 0 = "closing") ∧
    ((V2.updateElevatorOpenState WC7).acting 0 = some 1000) ∧
    WC7.elevState 0 = "open" ∧ WC7.acting 0 = none ∧
    WC7.passengers = [1] ∧ WC7.childOf 1 = some 0 ∧
    WC7.passState 1 = "boarding" ∧ WC7.passState 1 ≠ "riding" := by
  exact ⟨rfl, rfl, rfl, rfl, rfl, rfl, rfl, by decide⟩

/-- C7 (amended): for an unlocked elevator in state "open", the first
iteration behaves exactly as claimed: it stays "open" untouched when some
passenger located in it has state other than "riding" and otherwise
transitions to "closing" with a lock of duration 1000.  The second
iteration's open step conditions instead on `Boarding`/`Exiting` relation
edges, which nothing in the analysed code maintains: the elevator stays
"open" untouched when some entity has such an edge to it, and otherwise
transitions to "closing" with a lock regardless of co-located passengers'
states. -/
theorem C7_amended_open_behavior (w : World) (e : EntityId)
    (hs : w.elevState e = "open") :
    ((∃ p ∈ w.passengers, w.childOf p = some e ∧ w.passState p ≠ "riding") →
      V1.elevStep w e = Except.ok w) ∧
    ((¬ ∃ p ∈ w.passengers, w.childOf p = some e ∧ w.passState p ≠ "riding") →
      ∀ w', V1.elevStep w e = Except.ok w' →
        w'.elevState e = "closing" ∧ w'.acting e = some 1000) ∧
    ((∃ x ∈ w.entities, w.boardingRel x = some e ∨ w.exitingRel x = some e) →
      V2.openStep w e = w) ∧
    ((¬ ∃ x ∈ w.entities, w.boardingRel x = some e ∨ w.exitingRel x = some e) →
      (V2.openStep w e).elevState e = "closing" ∧
        (V2.openStep w e).acting e = some 1000) := by
  refine ⟨?_, ?_, ?_, ?_⟩
  · intro hbusy
    have hb : (w.passengers.any fun p =>
        w.childOf p == some e && w.passState p != "riding") = true := by
      rw [List.any_eq_true]
      rcases hbusy with ⟨p, hp, hc, hr⟩
      exact ⟨p, hp, by simp [hc, hr]⟩
    simp [V1.elevStep, hs, hb]
  · intro hquiet w' h
    have hbusy : (w.passengers.any fun p =>
        w.childOf p == some e && w.passState p != "riding") = false := by
      rw [List.any_eq_false]
      intro p hp
      simp only [Bool.and_eq_true, beq_iff_eq, bne_iff_ne, not_and]
      intro hc hr
      exact hquiet ⟨p, hp, hc, hr⟩
    have hstep : V1.elevStep w e = Except.ok
        (setActing (V1.setElevator w e { index := none, state := some "closing", queue := none }) e 1000) := by
      simp [V1.elevStep, hs, hbusy]
    rw [hstep] at h
    simp only [Except.ok.injEq] at h
    subst h
    simp [setActing, V1.setElevator]
  · intro htrans
    have hfil : (w.entities.filter fun x =>
        w.boardingRel x == some e || w.exitingRel x == some e).isEmpty = false := by
      rcases htrans with ⟨x, hx, hrel⟩
      rw [List.isEmpty_eq_false_iff_exists_mem]
      refine ⟨x, List.mem_filter.mpr ⟨hx, ?_⟩⟩
      rcases hrel with h1 | h1 <;> simp [h1]
    simp [V2.openStep, hs, hfil]
  · intro hquiet
    have hfil : (w.entities.filter fun x =>
        w.boardingRel x == some e || w.exitingRel x == some e).isEmpty = true := by
      simp only [List.isEmpty_iff, List.filter_eq_nil_iff]
      intro x hx1 hx2
      simp only [Bool.or_eq_true, beq_iff_eq] at hx2
      exact hquiet ⟨x, hx1, hx2⟩
    simp [V2.openStep, hs, hfil, setActing]

theorem C7_amended_open_behavior_witness :
    (WC7.elevState 0 = "open") ∧
    ((∃ p ∈ WC7.passengers, WC7.childOf p = some 0 ∧ WC7.passState p ≠ "riding") →
      V1.elevStep WC7 0 = Except.ok WC7) ∧
    (V1.elevStep WC7 0 = Except.ok WC7) ∧
    ((V2.updateElevatorOpenState WC7).elevState 0 = "closing") := by
  refine ⟨rfl, (C7_amended_open_behavior WC7 0 rfl).1, ?_, rfl⟩
  exact (C7_amended_open_behavior WC7 0 rfl).1 ⟨1, by decide, rfl, by decide⟩

/-! ## Moving state with an empty queue (claim C10) -/

theorem movingStep_skip {w : World} {x : EntityId} (hs : w.elevState x ≠ "moving") :
    V2.movingStep w x = Except.ok w := by
  simp [V2.movingStep, hs]

theorem movingStep_empty {w : World} {e : EntityId}
    (hs : w.elevState e = "moving") (hq : w.elevQueue e = []) :
    V2.movingStep w e =
      Except.ok { w with elevState := Function.update w.elevState e "closed" } := by
  simp [V2.movingStep, hs, hq]

theorem movingStep_local {w w1 : World} {x : EntityId}
    (h : V2.movingStep w x = Except.ok w1) :
    ∀ y, y ≠ x → w1.elevState y = w.elevState y ∧ w1.elevQueue y = w.elevQueue y ∧
      w1.childOf y = w.childOf y ∧ w1.acting y = w.acting y := by
  intro y hy
  unfold V2.movingStep at h
  dsimp only at h
  split at h
  · split at h
    · cases h
      simp [Function.update_noteq hy]
    · split at h
      · cases h
        simp [setActing, Function.update_noteq hy]
      · cases hidx : (w.childOf x).bind w.floorIndex with
        | none => rw [hidx] at h; cases h
        | some i =>
          rw [hidx] at h
          dsimp only at h
          cases hf : List.find? (fun f => w.floorIndex f ==
              some (i + if jsGtOpt (w.elevQueue x).head? (some i) then 1 else -1)) w.floors with
          | none => rw [hf] at h; cases h
          | some nid =>
            rw [hf] at h
            cases h
            simp [setActing, Function.update_noteq hy]
  · cases h
    exact ⟨rfl, rfl, rfl, rfl⟩

theorem movingFold (e : EntityId) (c0 : Option EntityId) (a0 : Option Int) :
    ∀ (L : List EntityId) (w w' : World),
      List.foldlM V2.movingStep w L = Except.ok w' → e ∈ L →
      w.elevState e = "moving" → w.elevQueue e = [] →
      w.childOf e = c0 → w.acting e = a0 →
      w'.elevState e = "closed" ∧ w'.elevQueue e = [] ∧
        w'.childOf e = c0 ∧ w'.acting e = a0 := by
  intro L
  induction L with
  | nil => intro w w' h hmem; cases hmem
  | cons x xs ih =>
    intro w w' h hmem hs hq hc ha
    rw [List.foldlM_cons] at h
    by_cases hx : x = e
    · subst hx
      rw [movingStep_empty hs hq] at h
      refine foldlM_ok_preserves
        (fun v => v.elevState x = "closed" ∧ v.elevQueue x = [] ∧
          v.childOf x = c0 ∧ v.acting x = a0) xs ?_ _ w'
        ⟨by simp, by simpa using hq, by simpa using hc, by simpa using ha⟩ h
      intro v z hz hP v1 h1
      by_cases hzx : z = x
      · subst hzx
        rw [movingStep_skip (by rw [hP.1]; simp)] at h1
        cases h1
        exact hP
      · have hloc := movingStep_local h1 x (fun hh => hzx hh.symm)
        exact ⟨hloc.1.trans hP.1, hloc.2.1.trans hP.2.1,
          hloc.2.2.1.trans hP.2.2.1, hloc.2.2.2.trans hP.2.2.2⟩
    · cases hstep : V2.movingStep w x with
      | error s => rw [hstep] at h; cases h
      | ok w1 =>
        rw [hstep] at h
        have hloc := movingStep_local hstep e (fun hh => hx hh.symm)
        have hmem' : e ∈ xs := by
          rcases List.mem_cons.mp hmem with rfl | hm
          · exact absurd rfl hx
          · exact hm
        exact ih w1 w' h hmem' (hloc.1.trans hs) (hloc.2.1.trans hq)
          (hloc.2.2.1.trans hc) (hloc.2.2.2.trans ha)

/-- C10: an unlocked elevator in state "moving" with an empty queue is
set to "closed" by the moving-state step, with its floor (`ChildOf`
target), queue and (absent) lock untouched, and without reaching the
missing-floor error; the whole pass, when it succeeds, leaves exactly
that outcome for this elevator. -/
theorem C10_moving_empty_queue_closes (w : World) (e : EntityId)
    (he : e ∈ w.elevators) (hl : w.acting e = none)
    (hs : w.elevState e = "moving") (hq : w.elevQueue e = []) :
    (V2.movingStep w e =
      Except.ok { w with elevState := Function.update w.elevState e "closed" }) ∧
    (∀ w', V2.updateElevatorMovingState w = Except.ok w' →
      w'.elevState e = "closed" ∧ w'.elevQueue e = [] ∧
        w'.childOf e = w.childOf e ∧ w'.acting e = none) := by
  refine ⟨movingStep_empty hs hq, ?_⟩
  intro w' hok
  have hmem : e ∈ unlockedSnapshot w w.elevators :=
    List.mem_filter.mpr ⟨he, by simp [hl]⟩
  exact movingFold e (w.childOf e) none (unlockedSnapshot w w.elevators) w w'
    hok hmem hs hq rfl hl

/-- Concrete world for the C10 witness: a single unlocked elevator in
state "moving" with an empty queue on floor 10. -/
def WC10 : World := {
  nextId := 30
  entities := [0, 10, 11]
  elevators := [0]
  elevIndex := fun _ => 0
  elevState := fun _ => "moving"
  elevQueue := fun _ => []
  elevDir := fun _ => "none"
  passengers := []
  passState := fun _ => "waiting"
  passIndex := fun _ => 0
  floors := [10, 11]
  floorIndex := fun f => if f = 10 then some 0 else if f = 11 then some 1 else none
  childOf := fun e => if e = 0 then some 10 else none
  destinedTo := fun _ => none
  boardingRel := fun _ => none
  exitingRel := fun _ => none
  acting := fun _ => none }

theorem C10_moving_empty_queue_closes_witness :
    (0 ∈ WC10.elevators) ∧ (WC10.acting 0 = none) ∧
    (WC10.elevState 0 = "moving") ∧ (WC10.elevQueue 0 = []) ∧
    (V2.updateElevatorMovingState WC10 =
      Except.ok { WC10 with elevState := Function.update WC10.elevState 0 "closed" }) ∧
    (∀ w', V2.updateElevatorMovingState WC10 = Except.ok w' →
      w'.elevState 0 = "closed" ∧ w'.elevQueue 0 = [] ∧
        w'.childOf 0 = WC10.childOf 0 ∧ w'.acting 0 = none) := by
  refine ⟨by decide, rfl, rfl, rfl, rfl,
    (C10_moving_empty_queue_closes WC10 0 (by decide) rfl rfl rfl).2⟩

/-! ## Spawn postconditions (claim C8) -/

theorem mem_jsDedup_go (a : Int) :
    ∀ (l seen : List Int), a ∈ jsDedup.go seen l ↔ a ∈ l ∧ a ∉ seen := by
  intro l
  induction l with
  | nil => intro seen; simp [jsDedup.go]
  | cons x xs ih =>
    intro seen
    unfold jsDedup.go
    by_cases hx : x ∈ seen
    · rw [if_pos hx, ih]
      constructor
      · rintro ⟨h1, h2⟩
        exact ⟨List.mem_cons_of_mem x h1, h2⟩
      · rintro ⟨h1, h2⟩
        rcases List.mem_cons.mp h1 with rfl | h1
        · exact absurd hx h2
        · exact ⟨h1, h2⟩
    · rw [if_neg hx]
      simp only [List.mem_cons, ih]
      constructor
      · rintro (rfl | ⟨h1, h2⟩)
        · exact ⟨Or.inl rfl, hx⟩
        · exact ⟨Or.inr h1, fun hc => h2 (Or.inr hc)⟩
      · rintro ⟨rfl | h1, h2⟩
        · exact Or.inl rfl
        · by_cases hax : a = x
          · exact Or.inl hax
          · exact Or.inr ⟨h1, fun hc => (hc.elim hax h2)⟩

theorem mem_jsDedup (a : Int) (l : List Int) : a ∈ jsDedup l ↔ a ∈ l := by
  rw [jsDedup, mem_jsDedup_go]
  simp

/-- Concrete world for the C8 counterexample: the elevator queue already
contains 0, and the randomly chosen origin floor has index 0. -/
def WC8 : World := {
  nextId := 30
  entities := [10, 11, 20]
  elevators := [20]
  elevIndex := fun _ => 0
  elevState := fun _ => "closed"
  elevQueue := fun _ => [0]
  elevDir := fun _ => "none"
  passengers := []
  passState := fun _ => "waiting"
  passIndex := fun _ => 0
  floors := [10, 11]
  floorIndex := fun f => if f = 10 then some 0 else if f = 11 then some 1 else none
  childOf := fun _ => none
  destinedTo := fun _ => none
  boardingRel := fun _ => none
  exitingRel := fun _ => none
  acting := fun _ => none }

/-- C8 counterexample: in the first iteration's spawn (which routes the
queue write through `setElevator` and its `Set`-based deduplication),
spawning a passenger on the floor with index 0 while the queue is `[0]`
leaves the queue `[0]`: the origin floor's index is not appended, even
though the passenger itself is created as claimed. -/
theorem C8_counterexample_queue_dedup :
    (((V1.spawnStep WC8 0 0 WC8.floors).map fun w => w.elevQueue 20) =
      Except.ok [0]) ∧
    (WC8.elevQueue 20 = [0]) ∧
    (([0] : List Int) ≠ WC8.elevQueue 20 ++ [0]) ∧
    (((V1.spawnStep WC8 0 0 WC8.floors).map fun w =>
        (w.passState 30, w.childOf 30, w.destinedTo 30)) =
      Except.ok ("waiting", some 10, some 11)) ∧
    (WC8.floorIndex 10 = some 0) := by
  exact ⟨rfl, rfl, by decide, rfl, rfl⟩

/-- C8 (amended): every passenger created by either spawn pass is created
in state "waiting", located (`ChildOf`) at the chosen origin floor and
destined to a floor distinct from the origin; the origin floor's index is
pushed onto the elevator's queue — as a literal append in the second
iteration, and through first-occurrence deduplication in the first
iteration (so the queue is unchanged when the index is already present);
in both iterations the index is in the queue afterwards. -/
theorem C8_amended_spawn_postconditions (w : World) (r1 r2 : Nat)
    (fid did e : EntityId) (fi : Int)
    (hr1 : w.floors.get? r1 = some fid)
    (hr2 : (w.floors.filter fun f => f != fid).get? r2 = some did)
    (hfi : w.floorIndex fid = some fi)
    (he : w.elevators.head? = some e) :
    (did ≠ fid ∧ did ∈ w.floors) ∧
    ((V2.spawnStep w r1 r2).isOk = true) ∧
    (∀ w', V2.spawnStep w r1 r2 = Except.ok w' →
      w'.passState w.nextId = "waiting" ∧ w'.childOf w.nextId = some fid ∧
      w'.destinedTo w.nextId = some did ∧ w.nextId ∈ w'.passengers ∧
      w'.elevQueue e = w.elevQueue e ++ [fi] ∧ fi ∈ w'.elevQueue e) ∧
    ((V1.spawnStep w r1 r2 w.floors).isOk = true) ∧
    (∀ w', V1.spawnStep w r1 r2 w.floors = Except.ok w' →
      w'.passState w.nextId = "waiting" ∧ w'.childOf w.nextId = some fid ∧
      w'.destinedTo w.nextId = some did ∧ w.nextId ∈ w'.passengers ∧
      w'.elevQueue e = jsDedup (w.elevQueue e ++ [fi]) ∧ fi ∈ w'.elevQueue e) := by
  have hdidf : did ∈ w.floors.filter fun f => f != fid :=
    List.get?_mem hr2
  have hdidne : did ≠ fid := by
    have := (List.mem_filter.mp hdidf).2
    simpa using this
  have hdidfl : did ∈ w.floors := (List.mem_filter.mp hdidf).1
  refine ⟨⟨hdidne, hdidfl⟩, ?_, ?_, ?_, ?_⟩
  · unfold V2.spawnStep
    rw [hr1]
    dsimp only
    rw [hr2]
    dsimp only [setActing]
    rw [he]
    dsimp only
    rw [hfi]
    rfl
  · intro w' h
    unfold V2.spawnStep at h
    rw [hr1] at h
    dsimp only at h
    rw [hr2] at h
    dsimp only [setActing] at h
    rw [he] at h
    dsimp only at h
    rw [hfi] at h
    dsimp only at h
    simp only [Except.ok.injEq] at h
    subst h
    refine ⟨by simp, by simp, by simp, by simp, by simp, by simp⟩
  · unfold V1.spawnStep
    rw [hr1]
    dsimp only
    rw [hr2]
    dsimp only [setActing, V1.setPassenger]
    rw [he]
    dsimp only
    rw [hfi]
    rfl
  · intro w' h
    unfold V1.spawnStep at h
    rw [hr1] at h
    dsimp only at h
    rw [hr2] at h
    dsimp only [setActing, V1.setPassenger] at h
    rw [he] at h
    dsimp only at h
    rw [hfi] at h
    dsimp only [V1.setElevator] at h
    simp only [Except.ok.injEq] at h
    subst h
    refine ⟨?_, by simp, by simp, ?_, ?_, ?_⟩
    · simp [Function.update]
    · by_cases hp : w.nextId ∈ w.passengers <;> simp [hp]
    · simp [Option.getD]
    · simp [Option.getD, mem_jsDedup]

/-- Concrete world for the C8 witness: queue `[5]`, floors 10 and 11 with
indices 0 and 1, elevator 20. -/
def WC8W : World := { WC8 with elevQueue := fun _ => [5] }

theorem C8_amended_spawn_postconditions_witness :
    (WC8W.floors.get? 0 = some 10) ∧
    ((WC8W.floors.filter fun f => f != 10).get? 0 = some 11) ∧
    (WC8W.floorIndex 10 = some 0) ∧
    (WC8W.elevators.head? = some 20) ∧
    (((V2.spawnStep WC8W 0 0).map fun w => w.elevQueue 20) = Except.ok [5, 0]) ∧
    (((V1.spawnStep WC8W 0 0 WC8W.floors).map fun w => w.elevQueue 20) =
      Except.ok [5, 0]) ∧
    (((11 : EntityId) ≠ 10 ∧ (11 : EntityId) ∈ WC8W.floors) ∧
      ((V2.spawnStep WC8W 0 0).isOk = true) ∧
      (∀ w', V2.spawnStep WC8W 0 0 = Except.ok w' →
        w'.passState WC8W.nextId = "waiting" ∧ w'.childOf WC8W.nextId = some 10 ∧
        w'.destinedTo WC8W.nextId = some 11 ∧ WC8W.nextId ∈ w'.passengers ∧
        w'.elevQueue 20 = WC8W.elevQueue 20 ++ [0] ∧ (0 : Int) ∈ w'.elevQueue 20) ∧
      ((V1.spawnStep WC8W 0 0 WC8W.floors).isOk = true) ∧
      (∀ w', V1.spawnStep WC8W 0 0 WC8W.floors = Except.ok w' →
        w'.passState WC8W.nextId = "waiting" ∧ w'.childOf WC8W.nextId = some 10 ∧
        w'.destinedTo WC8W.nextId = some 11 ∧ WC8W.nextId ∈ w'.passengers ∧
        w'.elevQueue 20 = jsDedup (WC8W.elevQueue 20 ++ [0]) ∧
        (0 : Int) ∈ w'.elevQueue 20)) :=
  ⟨rfl, rfl, rfl, rfl, rfl, rfl,
    C8_amended_spawn_postconditions WC8W 0 0 10 11 20 0 rfl rfl rfl rfl⟩

/-! ## Reap and spawn pass (claim C9) -/

theorem reapFoldGone (p : EntityId) :
    ∀ (L : List EntityId) (v : World),
      v.passState p = "exiting" → v.passengers.Nodup →
      (p ∈ L ∨ p ∉ v.passengers) →
      p ∉ (List.foldl
        (fun w p => if w.passState p == "exiting" then destroyPassenger w p else w)
        v L).passengers := by
  intro L
  induction L with
  | nil =>
    intro v hs hnd hin
    rcases hin with h | h
    · exact absurd h (List.not_mem_nil p)
    · simpa using h
  | cons x xs ih =>
    intro v hs hnd hin
    rw [List.foldl_cons]
    have hps : (if v.passState x == "exiting" then destroyPassenger v x else v).passState =
        v.passState := by
      split <;> rfl
    have hsub : (if v.passState x == "exiting" then destroyPassenger v x else v).passengers.Sublist
        v.passengers := by
      split
      · exact List.erase_sublist x v.passengers
      · exact List.Sublist.refl _
    refine ih _ (by rw [hps]; exact hs) (hnd.sublist hsub) ?_
    rcases hin with hmem | hout
    · rcases List.mem_cons.mp hmem with rfl | hxs
      · refine Or.inr ?_
        have hcond : (v.passState p == "exiting") = true := by simp [hs]
        rw [if_pos hcond]
        intro hc
        have := (List.Nodup.mem_erase_iff hnd).mp hc
        exact this.1 rfl
      · exact Or.inl hxs
    · refine Or.inr fun hc => hout (hsub.mem hc)

theorem reap_facts (w : World) :
    (reapPassengers w).passengers.Sublist w.passengers ∧
    (reapPassengers w).nextId = w.nextId ∧
    (reapPassengers w).floors = w.floors ∧
    (reapPassengers w).elevators = w.elevators := by
  unfold reapPassengers
  refine foldl_preserves
    (fun v => v.passengers.Sublist w.passengers ∧ v.nextId = w.nextId ∧
      v.floors = w.floors ∧ v.elevators = w.elevators)
    (unlockedSnapshot w w.passengers) ?_ w
    ⟨List.Sublist.refl _, rfl, rfl, rfl⟩
  intro v x _ hP
  split
  · exact ⟨(List.erase_sublist x v.passengers).trans hP.1, hP.2.1, hP.2.2.1, hP.2.2.2⟩
  · exact hP

theorem reap_reaps (w : World) (p : EntityId)
    (hnd : w.passengers.Nodup) (hp : p ∈ w.passengers)
    (hl : w.acting p = none) (hs : w.passState p = "exiting") :
    p ∉ (reapPassengers w).passengers := by
  unfold reapPassengers
  refine reapFoldGone p (unlockedSnapshot w w.passengers) w hs hnd (Or.inl ?_)
  exact List.mem_filter.mpr ⟨hp, by simp [hl]⟩

theorem spawnStep2_effects {w w' : World} {r1 r2 : Nat}
    (h : V2.spawnStep w r1 r2 = Except.ok w') :
    w'.passengers = w.passengers ++ [w.nextId] ∧ w'.nextId = w.nextId + 1 := by
  unfold V2.spawnStep at h
  cases hg1 : w.floors.get? r1 with
  | none => rw [hg1] at h; cases h
  | some fid =>
    rw [hg1] at h
    dsimp only at h
    cases hg2 : (w.floors.filter fun f => f != fid).get? r2 with
    | none => rw [hg2] at h; cases h
    | some did =>
      rw [hg2] at h
      dsimp only [setActing] at h
      cases hh : w.elevators.head? with
      | none => rw [hh] at h; cases h
      | some e =>
        rw [hh] at h
        dsimp only at h
        cases hfi : w.floorIndex fid with
        | none => rw [hfi] at h; cases h
        | some fi =>
          rw [hfi] at h
          simp only [Except.ok.injEq] at h
          subst h
          exact ⟨rfl, rfl⟩

theorem spawnStep1_effects {w w' : World} {r1 r2 : Nat} {fl : List EntityId}
    (hnotin : w.nextId ∉ w.passengers)
    (h : V1.spawnStep w r1 r2 fl = Except.ok w') :
    w'.passengers = w.passengers ++ [w.nextId] ∧ w'.nextId = w.nextId + 1 := by
  unfold V1.spawnStep at h
  cases hg1 : fl.get? r1 with
  | none => rw [hg1] at h; cases h
  | some fid =>
    rw [hg1] at h
    dsimp only at h
    cases hg2 : (fl.filter fun f => f != fid).get? r2 with
    | none => rw [hg2] at h; cases h
    | some did =>
      rw [hg2] at h
      dsimp only [setActing, V1.setPassenger] at h
      rw [if_neg hnotin] at h
      cases hh : w.elevators.head? with
      | none =>
        rw [hh] at h
        simp only [Except.ok.injEq] at h
        subst h
        exact ⟨rfl, rfl⟩
      | some e =>
        rw [hh] at h
        dsimp only at h
        cases hfi : w.floorIndex fid with
        | none => rw [hfi] at h; cases h
        | some fi =>
          rw [hfi] at h
          dsimp only [V1.setElevator] at h
          simp only [Except.ok.injEq] at h
          subst h
          exact ⟨rfl, rfl⟩

theorem spawnLoopFold (rngs : Nat → Nat × Nat) (fl : List EntityId) :
    ∀ (L : List Nat) (v w' : World),
      List.foldlM (fun wa i => V1.spawnStep wa (rngs i).1 (rngs i).2 fl) v L =
        Except.ok w' →
      (∀ x ∈ v.passengers, x < v.nextId) →
      w'.passengers.length = v.passengers.length + L.length ∧
      (∀ p, p ∉ v.passengers → p < v.nextId → p ∉ w'.passengers) := by
  intro L
  induction L with
  | nil =>
    intro v w' h hfresh
    simp only [List.foldlM_nil, Except.pure] at h
    cases h
    exact ⟨by simp, fun p hp _ => hp⟩
  | cons i is ih =>
    intro v w' h hfresh
    rw [List.foldlM_cons] at h
    cases hstep : V1.spawnStep v (rngs i).1 (rngs i).2 fl with
    | error s => rw [hstep] at h; cases h
    | ok v1 =>
      rw [hstep] at h
      have heff := spawnStep1_effects (fun hc => lt_irrefl _ (hfresh _ hc)) hstep
      have hfresh1 : ∀ x ∈ v1.passengers, x < v1.nextId := by
        intro x hx
        rw [heff.1] at hx
        rw [heff.2]
        rcases List.mem_append.mp hx with hx | hx
        · exact Nat.lt_succ_of_lt (hfresh x hx)
        · rcases List.mem_singleton.mp hx with rfl
          exact Nat.lt_succ_self _
      obtain ⟨hlen, hgone⟩ := ih v1 w' h hfresh1
      refine ⟨?_, ?_⟩
      · rw [hlen, heff.1]
        simp [Nat.add_assoc, Nat.add_comm 1]
      · intro p hp hplt
        refine hgone p ?_ ?_
        · rw [heff.1]
          intro hc
          rcases List.mem_append.mp hc with hc | hc
          · exact hp hc
          · rcases List.mem_singleton.mp hc with rfl
            exact lt_irrefl _ hplt
        · rw [heff.2]
          exact Nat.lt_succ_of_lt hplt

/-- C9: in both lifecycle passes, every unlocked passenger already in
state "exiting" is destroyed by the reap phase, which runs before the
live count is compared against the population cap, and a pass that
started with at most 100 live passengers ends with at most 100: the
second iteration spawns one passenger only when fewer than 100 remain
after reaping, and the first iteration refills to at most the cap of
100. -/
theorem C9_reap_before_cap (w : World) (rGate r1 r2 : Nat) (rngs : Nat → Nat × Nat)
    (hcap : w.passengers.length ≤ 100)
    (hnd : w.passengers.Nodup)
    (hfresh : ∀ x ∈ w.passengers, x < w.nextId) :
    (∀ w', V2.managePassengerLifecycle w rGate r1 r2 = Except.ok w' →
      (∀ p ∈ w.passengers, w.acting p = none → w.passState p = "exiting" →
        p ∉ w'.passengers) ∧
      w'.passengers.length ≤ 100) ∧
    (∀ w', V1.managePassengerLifecycle w rngs = Except.ok w' →
      (∀ p ∈ w.passengers, w.acting p = none → w.passState p = "exiting" →
        p ∉ w'.passengers) ∧
      w'.passengers.length ≤ 100) := by
  obtain ⟨hsub, hnid, -, -⟩ := reap_facts w
  have hlen1 : (reapPassengers w).passengers.length ≤ 100 :=
    le_trans hsub.length_le hcap
  have hreap : ∀ p ∈ w.passengers, w.acting p = none → w.passState p = "exiting" →
      p ∉ (reapPassengers w).passengers := fun p hp hl hs => reap_reaps w p hnd hp hl hs
  have hfresh1 : ∀ x ∈ (reapPassengers w).passengers, x < (reapPassengers w).nextId := by
    intro x hx
    rw [hnid]
    exact hfresh x (hsub.subset hx)
  constructor
  · intro w' h
    unfold V2.managePassengerLifecycle at h
    dsimp only at h
    split at h
    · cases h
      exact ⟨hreap, hlen1⟩
    · split at h
      · cases h
        exact ⟨hreap, hlen1⟩
      · rename_i hle _
        have heff := spawnStep2_effects h
        constructor
        · intro p hp hl hs
          rw [heff.1]
          intro hc
          rcases List.mem_append.mp hc with hc | hc
          · exact hreap p hp hl hs hc
          · rcases List.mem_singleton.mp hc with rfl
            have hlt := hfresh _ hp
            rw [← hnid] at hlt
            exact lt_irrefl _ hlt
        · rw [heff.1]
          simp only [List.length_append, List.length_singleton]
          omega
  · intro w' h
    unfold V1.managePassengerLifecycle at h
    dsimp only at h
    obtain ⟨hlen, hgone⟩ := spawnLoopFold rngs (reapPassengers w).floors
      (List.range (100 - (reapPassengers w).passengers.length))
      (reapPassengers w) w' h hfresh1
    constructor
    · intro p hp hl hs
      refine hgone p (hreap p hp hl hs) ?_
      rw [hnid]
      exact hfresh p hp
    · rw [hlen, List.length_range]
      omega

/-- Concrete world for the C9 witness: 99 passengers with ids 1..99, of
which passenger 1 is unlocked in state "exiting"; two floors and one
elevator. -/
def WC9 : World := {
  nextId := 200
  entities := 100 :: 101 :: 102 :: (1 :: (List.range 98).map fun n => n + 2)
  elevators := [102]
  elevIndex := fun _ => 0
  elevState := fun _ => "closed"
  elevQueue := fun _ => []
  elevDir := fun _ => "none"
  passengers := 1 :: (List.range 98).map fun n => n + 2
  passState := fun p => if p = 1 then "exiting" else "waiting"
  passIndex := fun _ => 0
  floors := [100, 101]
  floorIndex := fun f => if f = 100 then some 0 else if f = 101 then some 1 else none
  childOf := fun e => if e = 102 then some 100 else if e < 100 then some 100 else none
  destinedTo := fun p => if p < 100 then some 101 else none
  boardingRel := fun _ => none
  exitingRel := fun _ => none
  acting := fun _ => none }

set_option maxRecDepth 16000 in
theorem C9_reap_before_cap_witness :
    (WC9.passengers.length ≤ 100) ∧ (WC9.passengers.Nodup) ∧
    (∀ x ∈ WC9.passengers, x < WC9.nextId) ∧
    ((∀ w', V2.managePassengerLifecycle WC9 0 0 0 = Except.ok w' →
        (∀ p ∈ WC9.passengers, WC9.acting p = none → WC9.passState p = "exiting" →
          p ∉ w'.passengers) ∧
        w'.passengers.length ≤ 100) ∧
      (∀ w', V1.managePassengerLifecycle WC9 (fun _ => (0, 0)) = Except.ok w' →
        (∀ p ∈ WC9.passengers, WC9.acting p = none → WC9.passState p = "exiting" →
          p ∉ w'.passengers) ∧
        w'.passengers.length ≤ 100)) ∧
    ((V2.managePassengerLifecycle WC9 0 0 0).map
        (fun w => (w.passengers.length, decide ((1 : EntityId) ∈ w.passengers))) =
      Except.ok (99, false)) ∧
    ((V1.managePassengerLifecycle WC9 (fun _ => (0, 0))).map
        (fun w => (w.passengers.length, decide ((1 : EntityId) ∈ w.passengers))) =
      Except.ok (100, false)) := by
  refine ⟨by decide, by decide, by decide,
    C9_reap_before_cap WC9 0 0 0 (fun _ => (0, 0)) (by decide) (by decide) (by decide),
    rfl, rfl⟩
